import Mathlib

/-!
Verification of the volumetric path tracer in src/ProjectVPT.cpp.

The C++ code is shallowly embedded over exact rationals: every float is
modelled as a `ℚ`, the C math-library calls (`sqrtf`, `logf`, `cosf`,
`sinf`, `tanf`, `powf`) are abstracted into a record `MathOps` of rational
functions (they live in libm, outside the repository), the global
`vtRandom` generator is modelled as a stream `rng : ℕ → ℚ` together with a
cursor that every operation threads and advances exactly as the C code
consumes random draws, and the two unbounded loops (delta tracking in
`vtTraceInteraction`, the scatter loop in `vtTraceSample`) take fuel and
return `Option`, with `none` meaning the fuel ran out.  IEEE division by
zero in the slab test is modelled by the extended type `XF` with signed
infinities and a NaN, with `fminf`/`fmaxf`/`<` following C99 semantics.
-/

set_option maxRecDepth 10000

namespace ProjectVPT

/-- Constant `kEP` from the source. -/
def kEP : ℚ := 1 / 100000

/-- Constant `kPI` from the source. -/
def kPI : ℚ := 31415926 / 10000000

/-- The C math-library functions used by the source, abstracted. -/
structure MathOps where
  sqrtf : ℚ → ℚ
  logf : ℚ → ℚ
  cosf : ℚ → ℚ
  sinf : ℚ → ℚ
  tanf : ℚ → ℚ
  powf : ℚ → ℚ → ℚ

/-- `VTVec3` from the source. -/
structure VTVec3 where
  x : ℚ
  y : ℚ
  z : ℚ
  deriving DecidableEq

/-- `VTVec3::Cross`. -/
def VTVec3.Cross (a b : VTVec3) : VTVec3 :=
  ⟨a.y * b.z - a.z * b.y, a.z * b.x - a.x * b.z, a.x * b.y - a.y * b.x⟩

/-- `VTVec3::Dot`. -/
def VTVec3.Dot (a b : VTVec3) : ℚ :=
  a.x * b.x + a.y * b.y + a.z * b.z

/-- `VTVec3::Length`: the square root is taken only above the `kEP` guard. -/
def VTVec3.Length (ops : MathOps) (a : VTVec3) : ℚ :=
  let sqrLength := a.x * a.x + a.y * a.y + a.z * a.z
  if sqrLength > kEP then ops.sqrtf sqrLength else 0

/-- `VTVec3::Normalize`: a vector of length below `kEP` is returned unchanged. -/
def VTVec3.Normalize (ops : MathOps) (a : VTVec3) : VTVec3 :=
  let l := VTVec3.Length ops a
  if l < kEP then a else ⟨a.x / l, a.y / l, a.z / l⟩

instance : Add VTVec3 := ⟨fun a b => ⟨a.x + b.x, a.y + b.y, a.z + b.z⟩⟩

instance : Sub VTVec3 := ⟨fun a b => ⟨a.x - b.x, a.y - b.y, a.z - b.z⟩⟩

instance : HMul VTVec3 VTVec3 VTVec3 := ⟨fun a v => ⟨a.x * v.x, a.y * v.y, a.z * v.z⟩⟩

instance : HMul VTVec3 ℚ VTVec3 := ⟨fun a v => ⟨a.x * v, a.y * v, a.z * v⟩⟩

theorem VTVec3.add_def (a b : VTVec3) : a + b = ⟨a.x + b.x, a.y + b.y, a.z + b.z⟩ := rfl

theorem VTVec3.sub_def (a b : VTVec3) : a - b = ⟨a.x - b.x, a.y - b.y, a.z - b.z⟩ := rfl

theorem VTVec3.smul_def (a : VTVec3) (v : ℚ) : a * v = ⟨a.x * v, a.y * v, a.z * v⟩ := rfl

/-- `VTMedium` from the source; the `density` array is modelled as a total
map from (possibly out-of-range) flat indices, so that the index-range
claims can be stated without an artificial bounds check. -/
structure VTMedium where
  volumeExtent : VTVec3
  albedo : ℚ
  maxExtinction : ℚ
  size : ℤ
  density : ℤ → ℚ

/-- `static_cast<int32_t>` on a float: truncation toward zero. -/
def truncQ (q : ℚ) : ℤ :=
  if 0 ≤ q then ⌊q⌋ else ⌈q⌉

/-- The fractional x grid coordinate `fx` computed by `VTMedium::Density`
before truncation: `(pos.x + volumeExtent.x*0.5f) / stepx`. -/
def VTMedium.fracX (m : VTMedium) (pos : VTVec3) : ℚ :=
  (pos.x + m.volumeExtent.x * (1 / 2)) / (m.volumeExtent.x / (m.size : ℚ))

/-- The fractional y grid coordinate in `VTMedium::Density`. -/
def VTMedium.fracY (m : VTMedium) (pos : VTVec3) : ℚ :=
  (pos.y + m.volumeExtent.y * (1 / 2)) / (m.volumeExtent.y / (m.size : ℚ))

/-- The fractional z grid coordinate in `VTMedium::Density`. -/
def VTMedium.fracZ (m : VTMedium) (pos : VTVec3) : ℚ :=
  (pos.z + m.volumeExtent.z * (1 / 2)) / (m.volumeExtent.z / (m.size : ℚ))

/-- Grid index `vx` in `VTMedium::Density`: `std::min(size - 1, (int32_t)fx)`.
Note that the source clamps only from above. -/
def VTMedium.cellX (m : VTMedium) (pos : VTVec3) : ℤ :=
  min (m.size - 1) (truncQ (m.fracX pos))

/-- Grid index `vx1` in `VTMedium::Density`. -/
def VTMedium.cellX1 (m : VTMedium) (pos : VTVec3) : ℤ :=
  min (m.size - 1) (m.cellX pos + 1)

/-- Grid index `vy` in `VTMedium::Density`. -/
def VTMedium.cellY (m : VTMedium) (pos : VTVec3) : ℤ :=
  min (m.size - 1) (truncQ (m.fracY pos))

/-- Grid index `vy1` in `VTMedium::Density`. -/
def VTMedium.cellY1 (m : VTMedium) (pos : VTVec3) : ℤ :=
  min (m.size - 1) (m.cellY pos + 1)

/-- Grid index `vz` in `VTMedium::Density`. -/
def VTMedium.cellZ (m : VTMedium) (pos : VTVec3) : ℤ :=
  min (m.size - 1) (truncQ (m.fracZ pos))

/-- Grid index `vz1` in `VTMedium::Density`. -/
def VTMedium.cellZ1 (m : VTMedium) (pos : VTVec3) : ℤ :=
  min (m.size - 1) (m.cellZ pos + 1)

/-- The four flat indices at which `VTMedium::Density` reads the `density`
array, in source order `d0, d1, d2, d3`. -/
def VTMedium.readIndices (m : VTMedium) (pos : VTVec3) : List ℤ :=
  [m.cellZ pos * m.size * m.size + m.cellY pos * m.size + m.cellX pos,
   m.cellZ pos * m.size * m.size + m.cellY pos * m.size + m.cellX1 pos,
   m.cellZ pos * m.size * m.size + m.cellY1 pos * m.size + m.cellX pos,
   m.cellZ1 pos * m.size * m.size + m.cellY pos * m.size + m.cellX pos]

/-- `VTMedium::Density`: successive linear blends along x, y, z of four
grid reads. -/
def VTMedium.Density (m : VTMedium) (pos : VTVec3) : ℚ :=
  let fx := m.fracX pos - (m.cellX pos : ℚ)
  let fy := m.fracY pos - (m.cellY pos : ℚ)
  let fz := m.fracZ pos - (m.cellZ pos : ℚ)
  let d0 := m.density (m.cellZ pos * m.size * m.size + m.cellY pos * m.size + m.cellX pos)
  let d1 := m.density (m.cellZ pos * m.size * m.size + m.cellY pos * m.size + m.cellX1 pos)
  let d2 := m.density (m.cellZ pos * m.size * m.size + m.cellY1 pos * m.size + m.cellX pos)
  let d3 := m.density (m.cellZ1 pos * m.size * m.size + m.cellY pos * m.size + m.cellX pos)
  let e0 := d0 + (d1 - d0) * fx
  let e1 := e0 + (d2 - e0) * fy
  e1 + (d3 - e1) * fz

/-- `vtVoxelProceduralMedium`, the extinction field active in the source. -/
def vtVoxelProceduralMedium (ops : MathOps) (medium : VTMedium) (pos : VTVec3) : ℚ :=
  let r := (1 / 2 : ℚ) * ((1 / 2 : ℚ) - |pos.y|)
  let a := kPI * 8 * pos.y
  let dx := (ops.cosf a * r - pos.x) * 2
  let dy := (ops.sinf a * r - pos.z) * 2
  ops.powf (max (1 - dx * dx - dy * dy) 0) 8 * medium.maxExtinction

/-- `VTContext` from the source. -/
structure VTContext where
  cameraPos : VTVec3
  cameraDir : VTVec3
  znear : ℚ
  fov : ℚ
  ambient : VTVec3
  medium : VTMedium
  maxInteractions : ℕ
  imageWidth : ℕ
  imageHeight : ℕ
  samplePerPixel : ℕ

/-- Extended rationals with signed infinities and NaN, modelling the IEEE
float values that can arise in the slab test of `vtIntersectVolume` when a
ray direction component is zero. -/
inductive XF where
  | nan : XF
  | neginf : XF
  | fin : ℚ → XF
  | posinf : XF
  deriving DecidableEq

/-- IEEE float division `a / b` for finite `a`, `b` as used in the slab
test: finite quotient if `b ≠ 0`, a signed infinity if `a ≠ 0`, NaN for
`0/0`. -/
def XF.div (a b : ℚ) : XF :=
  if b = 0 then
    if 0 < a then .posinf else if a < 0 then .neginf else .nan
  else .fin (a / b)

/-- C99 `fminf`: if one argument is NaN the other is returned. -/
def fminfX : XF → XF → XF
  | .nan, b => b
  | a, .nan => a
  | .neginf, _ => .neginf
  | _, .neginf => .neginf
  | .posinf, b => b
  | a, .posinf => a
  | .fin a, .fin b => .fin (min a b)

/-- C99 `fmaxf`: if one argument is NaN the other is returned. -/
def fmaxfX : XF → XF → XF
  | .nan, b => b
  | a, .nan => a
  | .posinf, _ => .posinf
  | _, .posinf => .posinf
  | .neginf, b => b
  | a, .neginf => a
  | .fin a, .fin b => .fin (max a b)

/-- IEEE `<` on extended floats: any comparison with NaN is false. -/
def XF.ltb : XF → XF → Bool
  | .nan, _ => false
  | _, .nan => false
  | .neginf, .neginf => false
  | .neginf, _ => true
  | _, .neginf => false
  | .posinf, _ => false
  | _, .posinf => true
  | .fin a, .fin b => decide (a < b)

/-- The finite value of an `XF`, used where the C code reads the written
`tmin` float after a hit (a hit forces `tmin` finite). -/
def XF.toQ : XF → ℚ
  | .fin q => q
  | _ => 0

/-- `vtIntersectVolume`: slab test of the ray against the axis-aligned box
of half-extents `volumeExtent/2`, returning `(hit, tmin)`. -/
def vtIntersectVolume (context : VTContext) (p d : VTVec3) : Bool × XF :=
  let halfVolumeExtent := context.medium.volumeExtent * (1 / 2 : ℚ)
  let x0 := XF.div (-halfVolumeExtent.x - p.x) d.x
  let y0 := XF.div (-halfVolumeExtent.y - p.y) d.y
  let z0 := XF.div (-halfVolumeExtent.z - p.z) d.z
  let x1 := XF.div (halfVolumeExtent.x - p.x) d.x
  let y1 := XF.div (halfVolumeExtent.y - p.y) d.y
  let z1 := XF.div (halfVolumeExtent.z - p.z) d.z
  let tmin := fmaxfX (fmaxfX (fmaxfX (fminfX z0 z1) (fminfX y0 y1)) (fminfX x0 x1)) (.fin 0)
  let tmax := fminfX (fminfX (fmaxfX z0 z1) (fmaxfX y0 y1)) (fmaxfX x0 x1)
  (XF.ltb tmin tmax, tmin)

/-- `vtInVolume`: containment in the axis-aligned box. -/
def vtInVolume (context : VTContext) (pos : VTVec3) : Bool :=
  let h := context.medium.volumeExtent * (1 / 2 : ℚ)
  if -h.x > pos.x ∨ h.x < pos.x then false
  else if -h.y > pos.y ∨ h.y < pos.y then false
  else if -h.z > pos.z ∨ h.z < pos.z then false
  else true

/-- `vtExtinction`: the source routes extinction queries to
`vtVoxelProceduralMedium` (the grid and Sierpinski variants are commented
out there). -/
def vtExtinction (ops : MathOps) (context : VTContext) (pos d : VTVec3) : ℚ :=
  vtVoxelProceduralMedium ops context.medium pos

/-- The loop body of `vtTraceInteraction` (delta tracking).  `t` is the
accumulated free-flight parameter, `i` the random-stream cursor; each
iteration consumes one draw for the exponential step and, if the candidate
is still inside the volume, one draw for the acceptance test.  `none`
means the fuel ran out. -/
def vtTraceInteractionAux (ops : MathOps) (rng : ℕ → ℚ) (context : VTContext)
    (p d : VTVec3) : ℕ → ℚ → ℕ → Option (Bool × VTVec3 × ℕ)
  | 0, _, _ => none
  | fuel + 1, t, i =>
    let t' := t - ops.logf (1 - rng i) / context.medium.maxExtinction
    let s := p + d * t'
    if vtInVolume context s then
      if vtExtinction ops context s d < rng (i + 1) * context.medium.maxExtinction then
        vtTraceInteractionAux ops rng context p d fuel t' (i + 2)
      else
        some (true, s, i + 2)
    else
      some (false, p, i + 1)

/-- `vtTraceInteraction`: returns `some (accepted, p', cursor)` where `p'`
is the final value of the by-reference position parameter (written only on
acceptance). -/
def vtTraceInteraction (ops : MathOps) (rng : ℕ → ℚ) (context : VTContext)
    (p d : VTVec3) (fuel i : ℕ) : Option (Bool × VTVec3 × ℕ) :=
  vtTraceInteractionAux ops rng context p d fuel 0 i

/-- The isotropic phase-function direction sampled in `vtTraceSample` from
two uniform draws at cursor `i`. -/
def vtScatterDir (ops : MathOps) (rng : ℕ → ℚ) (i : ℕ) : VTVec3 :=
  let phi := 2 * kPI * rng i
  let cos_theta := 1 - 2 * rng (i + 1)
  let sin_theta := ops.sqrtf (1 - cos_theta * cos_theta)
  ⟨ops.cosf phi * sin_theta, ops.sinf phi * sin_theta, cos_theta⟩

/-- The `while (vtTraceInteraction(...))` loop of `vtTraceSample`,
including the post-loop weight reset and the final `ambient * weight`
(which the C code reaches when the loop exits normally). -/
def vtTraceSampleLoop (ops : MathOps) (rng : ℕ → ℚ) (context : VTContext) (ifuel : ℕ) :
    ℕ → VTVec3 → VTVec3 → ℚ → ℚ → ℕ → ℕ → Option (VTVec3 × ℕ)
  | 0, _, _, _, _, _, _ => none
  | fuel + 1, rayPos, rayDir, weight, totalWeight, interactions, i =>
    match vtTraceInteraction ops rng context rayPos rayDir ifuel i with
    | none => none
    | some (false, _, i1) =>
      some (context.ambient * (if interactions = 0 then (1 : ℚ) else weight), i1)
    | some (true, s, i1) =>
      if context.maxInteractions ≤ interactions then
        some (⟨0, 0, 0⟩, i1)
      else
        let w1 := weight * context.medium.albedo
        if w1 < 1 / 5 then
          if rng i1 > w1 * 5 then
            some (⟨0, 0, 0⟩, i1 + 1)
          else
            vtTraceSampleLoop ops rng context ifuel fuel s (vtScatterDir ops rng (i1 + 1))
              (1 / 5) (totalWeight + 1 / 5) (interactions + 1) (i1 + 1 + 2)
        else
          vtTraceSampleLoop ops rng context ifuel fuel s (vtScatterDir ops rng i1)
            w1 (totalWeight + w1) (interactions + 1) (i1 + 2)

/-- `vtTraceSample`: one radiance sample for a camera ray.  `fuel` bounds
the scatter loop, `ifuel` each inner delta-tracking loop. -/
def vtTraceSample (ops : MathOps) (rng : ℕ → ℚ) (context : VTContext)
    (p d : VTVec3) (fuel ifuel i : ℕ) : Option (VTVec3 × ℕ) :=
  match vtIntersectVolume context p d with
  | (true, tmin) =>
    vtTraceSampleLoop ops rng context ifuel fuel (p + d * (tmin.toQ + 1 / 100)) d 1 0 0 i
  | (false, _) => some (context.ambient * (1 : ℚ), i)

/-- `cameraSize` in `vtVolumePathTrace`. -/
def vtCameraSize (ops : MathOps) (context : VTContext) : ℚ :=
  context.znear * ops.tanf context.fov * 2

/-- `widthPerPixel` in `vtVolumePathTrace`. -/
def vtWidthPerPixel (ops : MathOps) (context : VTContext) : ℚ :=
  vtCameraSize ops context / (context.imageWidth : ℚ)

/-- `heightPerPixel` in `vtVolumePathTrace`. -/
def vtHeightPerPixel (ops : MathOps) (context : VTContext) : ℚ :=
  vtCameraSize ops context / (context.imageHeight : ℚ)

/-- The camera right vector `h` in `vtVolumePathTrace`. -/
def vtBasisH (ops : MathOps) (context : VTContext) : VTVec3 :=
  VTVec3.Normalize ops (VTVec3.Cross ⟨0, 1, 0⟩ context.cameraDir)

/-- The camera up vector `u` in `vtVolumePathTrace`. -/
def vtBasisU (ops : MathOps) (context : VTContext) : VTVec3 :=
  VTVec3.Normalize ops (VTVec3.Cross context.cameraDir (vtBasisH ops context))

/-- The image-plane corner `lb` in `vtVolumePathTrace`. -/
def vtLowerBound (ops : MathOps) (context : VTContext) : VTVec3 :=
  (context.cameraPos + context.cameraDir * context.znear) -
    vtBasisH ops context * ((context.imageWidth : ℚ) / 2 * vtWidthPerPixel ops context) -
    vtBasisU ops context * ((context.imageHeight : ℚ) / 2 * vtHeightPerPixel ops context)

/-- The world-space origin of the sub-pixel sample `(x, y)` of pixel
`(px, py)`, jittered by the two uniform draws `u1`, `u2`. -/
def vtSampleStart (ops : MathOps) (context : VTContext) (px py x y : ℕ) (u1 u2 : ℚ) : VTVec3 :=
  let rx := ((px : ℚ) + ((x : ℚ) + u1) *
    (vtWidthPerPixel ops context / (context.samplePerPixel : ℚ))) * vtWidthPerPixel ops context
  let ry := ((py : ℚ) + ((y : ℚ) + u2) *
    (vtHeightPerPixel ops context / (context.samplePerPixel : ℚ))) * vtHeightPerPixel ops context
  vtLowerBound ops context + vtBasisH ops context * rx + vtBasisU ops context * ry

/-- The direction of a sample ray in `vtVolumePathTrace`. -/
def vtSampleDir (ops : MathOps) (context : VTContext) (start : VTVec3) : VTVec3 :=
  VTVec3.Normalize ops (start - context.cameraPos)

/-- The sub-pixel grid visited by the double sample loop of
`vtVolumePathTrace`, in iteration order (`x` outer, `y` inner). -/
def vtSamplePoints (S : ℕ) : List (ℕ × ℕ) :=
  (List.range S).flatMap fun x => (List.range S).map fun y => (x, y)

/-- The sample-accumulation loop of `vtVolumePathTrace`: each iteration
consumes two jitter draws and then runs `vtTraceSample`. -/
def vtAccumulate (ops : MathOps) (rng : ℕ → ℚ) (context : VTContext)
    (px py fuel ifuel : ℕ) : List (ℕ × ℕ) → VTVec3 × ℕ → Option (VTVec3 × ℕ)
  | [], st => some st
  | (x, y) :: rest, (accumColor, i) =>
    let start := vtSampleStart ops context px py x y (rng i) (rng (i + 1))
    let dir := vtSampleDir ops context start
    match vtTraceSample ops rng context start dir fuel ifuel (i + 2) with
    | none => none
    | some (c, i1) =>
      vtAccumulate ops rng context px py fuel ifuel rest (accumColor + c, i1)

/-- `static_cast<uint32_t>` of a nonnegative float value. -/
def truncU (q : ℚ) : ℕ :=
  (⌊q⌋).toNat

/-- Tone mapping, gamma encoding and byte conversion at the end of
`vtVolumePathTrace`, producing the four bytes written to the pixel in
offset order (B, G, R, A). -/
def vtFinalize (ops : MathOps) (accumColor : VTVec3) : ℕ × ℕ × ℕ × ℕ :=
  let cx := accumColor.x * (1 + accumColor.x * (1 / 10)) / (1 + accumColor.x)
  let cy := accumColor.y * (1 + accumColor.y * (1 / 10)) / (1 + accumColor.y)
  let cz := accumColor.z * (1 + accumColor.z * (1 / 10)) / (1 + accumColor.z)
  let r := truncU (255 * min (ops.powf (max cx 0) (1 / (22 / 10 : ℚ))) 1)
  let g := truncU (255 * min (ops.powf (max cy 0) (1 / (22 / 10 : ℚ))) 1)
  let b := truncU (255 * min (ops.powf (max cz 0) (1 / (22 / 10 : ℚ))) 1)
  (b, g, r, 255)

/-- `vtVolumePathTrace`: the per-pixel shader.  Returns the four bytes
written for pixel `(px, py)` together with the final random-stream
cursor. -/
def vtVolumePathTrace (ops : MathOps) (rng : ℕ → ℚ) (context : VTContext)
    (px py fuel ifuel i : ℕ) : Option ((ℕ × ℕ × ℕ × ℕ) × ℕ) :=
  match vtAccumulate ops rng context px py fuel ifuel
      (vtSamplePoints context.samplePerPixel) (⟨0, 0, 0⟩, i) with
  | none => none
  | some (accumColor, i1) =>
    some (vtFinalize ops (accumColor *
      ((1 : ℚ) / ((context.samplePerPixel : ℚ) * (context.samplePerPixel : ℚ)))), i1)

/-! ### Concrete fixtures used by the evaluation witnesses -/

/-- A random stream that always returns 0. -/
def rngZero : ℕ → ℚ := fun _ => 0

/-- Constant math ops for concrete evaluation (the libm functions are
external, so any interpretation is admissible for a witness). -/
def opsZero : MathOps := ⟨fun _ => 0, fun _ => 0, fun _ => 0, fun _ => 0, fun _ => 0, fun _ _ => 1⟩

/-- A unit box medium with majorant 1 and albedo 1/2. -/
def medUnit : VTMedium := ⟨⟨1, 1, 1⟩, 1 / 2, 1, 1, fun _ => 0⟩

/-- A context whose camera sits at the origin inside the unit box. -/
def ctxUnit : VTContext := ⟨⟨0, 0, 0⟩, ⟨0, 0, 1⟩, 1, 0, ⟨2, 2, 2⟩, medUnit, 0, 1, 1, 1⟩

/-- Math ops with a small negative constant log, so the exponential step
advances by 1/100 each draw. -/
def opsLog : MathOps := ⟨fun _ => 0, fun _ => -1 / 100, fun _ => 0, fun _ => 0, fun _ => 0, fun x _ => x⟩

/-- Math ops for the camera-facing-away pixel test. -/
def opsAway : MathOps := ⟨fun _ => 1, fun _ => 0, fun _ => 0, fun _ => 0, fun _ => 1 / 2, fun _ _ => 113 / 125⟩

/-- A 1-by-1 image, one sample per pixel, camera at (0,0,-2) facing away
from the unit box. -/
def ctxAway : VTContext := ⟨⟨0, 0, -2⟩, ⟨0, 0, -1⟩, 1, 0, ⟨2, 2, 2⟩, medUnit, 0, 1, 1, 1⟩

/-- A 1-by-1 image, two samples per pixel axis, camera at (0,0,2) facing
away from the unit box. -/
def ctxAway2 : VTContext := ⟨⟨0, 0, 2⟩, ⟨0, 0, 1⟩, 1, 0, ⟨3, 3, 3⟩, medUnit, 0, 1, 1, 2⟩

/-- Math ops for the cursor-dependence counterexample: the gamma power is
the identity in its first argument so that black and ambient pixels map to
different bytes. -/
def opsHit : MathOps := ⟨fun _ => 1, fun _ => -1 / 100, fun _ => 0, fun _ => 0, fun _ => 1 / 2, fun x _ => x⟩

/-- A 1-by-1 image, one sample per pixel, camera at (0,0,-2) aimed at the
unit box, with `maxInteractions = 0`. -/
def ctxHit : VTContext := ⟨⟨0, 0, -2⟩, ⟨0, 0, 1⟩, 1, 0, ⟨2, 2, 2⟩, medUnit, 0, 1, 1, 1⟩

/-- A stream whose draws 1 and 2 are 1/2 and all others 0: depending on
the starting cursor, the jittered camera ray misses or hits the box. -/
def rngSplit : ℕ → ℚ := fun j => if j = 1 ∨ j = 2 then 1 / 2 else 0

/-- A stream that agrees with `rngZero` on positions 0 and 1 only. -/
def rngTail : ℕ → ℚ := fun j => if j < 2 then 0 else 7

/-- A 2-by-2-by-2 grid medium over the unit box. -/
def medGrid2 : VTMedium := ⟨⟨1, 1, 1⟩, 1 / 2, 1, 2, fun _ => 0⟩

/-- Math ops whose square root is exact on the inputs 25 and 1. -/
def opsSqrt25 : MathOps :=
  ⟨fun q => if q = 25 then 5 else if q = 1 then 1 else 0,
   fun _ => 0, fun _ => 0, fun _ => 0, fun _ => 0, fun _ _ => 1⟩

/-! ### Helper lemmas -/

theorem fmaxfX_fin_zero (a : XF) :
    fmaxfX a (.fin 0) = XF.posinf ∨ ∃ q, fmaxfX a (.fin 0) = XF.fin q ∧ 0 ≤ q := by
  cases a with
  | nan => exact .inr ⟨0, rfl, le_refl 0⟩
  | neginf => exact .inr ⟨0, rfl, le_refl 0⟩
  | fin q => exact .inr ⟨max q 0, rfl, le_max_right q 0⟩
  | posinf => exact .inl rfl

/-! ### Claim C4: the slab test -/

/-- C4: `vtIntersectVolume` implements the slab method: per-axis entry and
exit parameters via (IEEE) division, `tMin` is the maximum of the per-axis
minima clamped to at least 0 (so the written `tMin` is never negative),
`tMax` the minimum of the per-axis maxima, and `hit` is exactly
`tMin < tMax`; on the unit box with ray origin (0,0,-2) and direction
(0,0,1) it returns a hit with `tMin = 3/2`. -/
theorem vtIntersectVolume_slab :
    (∀ (context : VTContext) (p d : VTVec3),
      vtIntersectVolume context p d =
        (let h := context.medium.volumeExtent * (1 / 2 : ℚ)
         let tmin := fmaxfX (fmaxfX (fmaxfX
             (fminfX (XF.div (-h.z - p.z) d.z) (XF.div (h.z - p.z) d.z))
             (fminfX (XF.div (-h.y - p.y) d.y) (XF.div (h.y - p.y) d.y)))
             (fminfX (XF.div (-h.x - p.x) d.x) (XF.div (h.x - p.x) d.x))) (.fin 0)
         let tmax := fminfX (fminfX
             (fmaxfX (XF.div (-h.z - p.z) d.z) (XF.div (h.z - p.z) d.z))
             (fmaxfX (XF.div (-h.y - p.y) d.y) (XF.div (h.y - p.y) d.y)))
             (fmaxfX (XF.div (-h.x - p.x) d.x) (XF.div (h.x - p.x) d.x))
         (XF.ltb tmin tmax, tmin))) ∧
    (∀ (context : VTContext) (p d : VTVec3),
      (vtIntersectVolume context p d).2 = XF.posinf ∨
        ∃ q, (vtIntersectVolume context p d).2 = XF.fin q ∧ 0 ≤ q) ∧
    (∀ context : VTContext, context.medium.volumeExtent = ⟨1, 1, 1⟩ →
      vtIntersectVolume context ⟨0, 0, -2⟩ ⟨0, 0, 1⟩ = (true, XF.fin (3 / 2))) := by
  refine ⟨fun context p d => rfl, fun context p d => ?_, fun context h => ?_⟩
  · exact fmaxfX_fin_zero _
  · simp only [vtIntersectVolume, h]
    with_unfolding_all decide

/-- Witness for C4: the concrete-instance conjunct evaluated on a context
with the unit-box medium. -/
theorem vtIntersectVolume_slab_witness :
    vtIntersectVolume ctxUnit ⟨0, 0, -2⟩ ⟨0, 0, 1⟩ = (true, XF.fin (3 / 2)) :=
  vtIntersectVolume_slab.2.2 ctxUnit rfl

/-! ### Claim C1: accepted interactions lie inside the volume -/

theorem vtTraceInteractionAux_true_inVolume (ops : MathOps) (rng : ℕ → ℚ)
    (context : VTContext) (p d : VTVec3) :
    ∀ fuel t i s i1,
      vtTraceInteractionAux ops rng context p d fuel t i = some (true, s, i1) →
      vtInVolume context s = true := by
  intro fuel
  induction fuel with
  | zero => intro t i s i1 h; simp [vtTraceInteractionAux] at h
  | succ n ih =>
    intro t i s i1 h
    simp only [vtTraceInteractionAux] at h
    split_ifs at h with h1 h2
    · exact ih _ _ _ _ h
    · simp only [Option.some.injEq, Prod.mk.injEq] at h
      rw [← h.2.1]
      exact h1
    · simp at h

/-- C1: whenever `vtTraceInteraction` reports an interaction (returns
true), the position it writes back lies inside the volume bounding box;
candidates outside the box are never accepted. -/
theorem vtTraceInteraction_true_inVolume (ops : MathOps) (rng : ℕ → ℚ)
    (context : VTContext) (p d : VTVec3) (fuel i : ℕ) (s : VTVec3) (i1 : ℕ)
    (h : vtTraceInteraction ops rng context p d fuel i = some (true, s, i1)) :
    vtInVolume context s = true :=
  vtTraceInteractionAux_true_inVolume ops rng context p d fuel 0 i s i1 h

/-- Witness for C1: a concrete accepted interaction whose written position
is inside the box. -/
theorem vtTraceInteraction_true_inVolume_witness :
    vtInVolume ctxUnit ⟨0, 0, 0⟩ = true :=
  vtTraceInteraction_true_inVolume opsZero rngZero ctxUnit ⟨0, 0, 0⟩ ⟨0, 0, 1⟩ 1 0
    ⟨0, 0, 0⟩ 2 (by with_unfolding_all decide)

/-! ### Claim C10: a rejected trace leaves the position untouched -/

theorem vtTraceInteractionAux_false_pos (ops : MathOps) (rng : ℕ → ℚ)
    (context : VTContext) (p d : VTVec3) :
    ∀ fuel t i q i1,
      vtTraceInteractionAux ops rng context p d fuel t i = some (false, q, i1) →
      q = p := by
  intro fuel
  induction fuel with
  | zero => intro t i q i1 h; simp [vtTraceInteractionAux] at h
  | succ n ih =>
    intro t i q i1 h
    simp only [vtTraceInteractionAux] at h
    split_ifs at h with h1 h2
    · exact ih _ _ _ _ h
    · simp at h
    · simp only [Option.some.injEq, Prod.mk.injEq] at h
      exact h.2.1.symm

/-- C10: if `vtTraceInteraction` reports no interaction (the candidate
escaped the volume), the by-reference position parameter is returned
exactly unchanged; it is overwritten only on acceptance. -/
theorem vtTraceInteraction_false_preserves_pos (ops : MathOps) (rng : ℕ → ℚ)
    (context : VTContext) (p d : VTVec3) (fuel i : ℕ) (q : VTVec3) (i1 : ℕ)
    (h : vtTraceInteraction ops rng context p d fuel i = some (false, q, i1)) :
    q = p :=
  vtTraceInteractionAux_false_pos ops rng context p d fuel 0 i q i1 h

/-- Witness for C10: a concrete escaping trace returns the input position. -/
theorem vtTraceInteraction_false_preserves_pos_witness :
    (⟨10, 0, 0⟩ : VTVec3) = ⟨10, 0, 0⟩ :=
  vtTraceInteraction_false_preserves_pos opsZero rngZero ctxUnit ⟨10, 0, 0⟩ ⟨0, 0, 1⟩ 1 0
    ⟨10, 0, 0⟩ 1 (by with_unfolding_all decide)

/-! ### Claim C2: path weight bounds -/

theorem vtTraceSampleLoop_weight (ops : MathOps) (rng : ℕ → ℚ) (context : VTContext)
    (ifuel : ℕ) (h0 : 0 ≤ context.medium.albedo) (h1 : context.medium.albedo ≤ 1) :
    ∀ fuel rayPos rayDir weight totalWeight interactions i c i1,
      0 ≤ weight → weight ≤ 1 → (interactions ≠ 0 → 1 / 5 ≤ weight) →
      vtTraceSampleLoop ops rng context ifuel fuel rayPos rayDir weight totalWeight interactions i
        = some (c, i1) →
      c = ⟨0, 0, 0⟩ ∨ ∃ w : ℚ, 1 / 5 ≤ w ∧ w ≤ 1 ∧ c = context.ambient * w := by
  intro fuel
  induction fuel with
  | zero =>
    intro _ _ _ _ _ _ _ _ _ _ _ h
    simp [vtTraceSampleLoop] at h
  | succ n ih =>
    intro rayPos rayDir weight totalWeight interactions i c i1 hw0 hw1 hrr h
    simp only [vtTraceSampleLoop] at h
    rcases hI : vtTraceInteraction ops rng context rayPos rayDir ifuel i with _ | ⟨b, s, j⟩
    · rw [hI] at h
      exact absurd h (by simp)
    · rw [hI] at h
      cases b with
      | false =>
        simp only [Option.some.injEq, Prod.mk.injEq] at h
        right
        refine ⟨if interactions = 0 then (1 : ℚ) else weight, ?_, ?_, h.1.symm⟩
        · split_ifs with hi
          · norm_num
          · exact hrr hi
        · split_ifs with hi
          · exact le_refl 1
          · exact hw1
      | true =>
        simp only at h
        split_ifs at h with hmax hlow hdead
        · simp only [Option.some.injEq, Prod.mk.injEq] at h
          exact .inl h.1.symm
        · simp only [Option.some.injEq, Prod.mk.injEq] at h
          exact .inl h.1.symm
        · refine ih _ _ _ _ _ _ _ _ ?_ ?_ ?_ h
          · norm_num
          · norm_num
          · intro; norm_num
        · refine ih _ _ _ _ _ _ _ _ ?_ ?_ ?_ h
          · exact mul_nonneg hw0 h0
          · calc weight * context.medium.albedo ≤ 1 * 1 :=
                mul_le_mul hw1 h1 h0 zero_le_one
              _ = 1 := one_mul 1
          · intro
            exact le_of_not_lt hlow

/-- C2: with albedo in [0,1], the radiance `vtTraceSample` returns is
either black or the ambient color scaled by a path weight that never
exceeds 1 and, once any interaction has survived Russian roulette, is at
least 1/5 (so the scale is 1 for interaction-free paths and lies in
[1/5, 1] otherwise). -/
theorem vtTraceSample_weight_bounds (ops : MathOps) (rng : ℕ → ℚ) (context : VTContext)
    (p d : VTVec3) (fuel ifuel i : ℕ) (c : VTVec3) (i1 : ℕ)
    (h0 : 0 ≤ context.medium.albedo) (h1 : context.medium.albedo ≤ 1)
    (h : vtTraceSample ops rng context p d fuel ifuel i = some (c, i1)) :
    c = ⟨0, 0, 0⟩ ∨ ∃ w : ℚ, 1 / 5 ≤ w ∧ w ≤ 1 ∧ c = context.ambient * w := by
  unfold vtTraceSample at h
  rcases hV : vtIntersectVolume context p d with ⟨b, tm⟩
  rw [hV] at h
  cases b with
  | true =>
    exact vtTraceSampleLoop_weight ops rng context ifuel h0 h1 fuel _ d 1 0 0 i c i1
      zero_le_one le_rfl (fun hi => absurd rfl hi) h
  | false =>
    simp only [Option.some.injEq, Prod.mk.injEq] at h
    exact .inr ⟨1, by norm_num, le_rfl, h.1.symm⟩

/-- Witness for C2: a ray that misses the unit box returns the ambient
color with weight 1. -/
theorem vtTraceSample_weight_bounds_witness :
    (⟨2, 2, 2⟩ : VTVec3) = ⟨0, 0, 0⟩ ∨
      ∃ w : ℚ, 1 / 5 ≤ w ∧ w ≤ 1 ∧ (⟨2, 2, 2⟩ : VTVec3) = ctxUnit.ambient * w :=
  vtTraceSample_weight_bounds opsLog rngZero ctxUnit ⟨2, 0, 0⟩ ⟨1, 0, 0⟩ 1 1 0 ⟨2, 2, 2⟩ 0
    (by norm_num [ctxUnit, medUnit]) (by norm_num [ctxUnit, medUnit])
    (by with_unfolding_all decide)

/-! ### Claim C3: exceeding the interaction budget returns black -/

/-- C3: when an accepted interaction makes the count exceed
`maxInteractions` (the pre-increment counter is already at the maximum),
the scatter loop returns black (0,0,0) immediately; in particular with
`maxInteractions = 0`, any camera ray that hits the volume and whose first
delta-tracking trace accepts an interaction yields black. -/
theorem vtTraceSample_maxInteractions_black :
    (∀ (ops : MathOps) (rng : ℕ → ℚ) (context : VTContext) (ifuel fuel : ℕ)
        (rayPos rayDir : VTVec3) (weight totalWeight : ℚ) (interactions i : ℕ)
        (s : VTVec3) (i1 : ℕ),
      context.maxInteractions ≤ interactions →
      vtTraceInteraction ops rng context rayPos rayDir ifuel i = some (true, s, i1) →
      vtTraceSampleLoop ops rng context ifuel (fuel + 1) rayPos rayDir weight totalWeight
        interactions i = some (⟨0, 0, 0⟩, i1)) ∧
    (∀ (ops : MathOps) (rng : ℕ → ℚ) (context : VTContext) (p d : VTVec3)
        (fuel ifuel i : ℕ) (s : VTVec3) (i1 : ℕ),
      context.maxInteractions = 0 →
      (vtIntersectVolume context p d).1 = true →
      vtTraceInteraction ops rng context
        (p + d * ((vtIntersectVolume context p d).2.toQ + 1 / 100)) d ifuel i
        = some (true, s, i1) →
      vtTraceSample ops rng context p d (fuel + 1) ifuel i = some (⟨0, 0, 0⟩, i1)) := by
  constructor
  · intro ops rng context ifuel fuel rayPos rayDir weight totalWeight interactions i s i1
      hmax hI
    simp only [vtTraceSampleLoop]
    rw [hI]
    simp only [if_pos hmax]
  · intro ops rng context p d fuel ifuel i s i1 hzero hhit hI
    unfold vtTraceSample
    rcases hV : vtIntersectVolume context p d with ⟨b, tm⟩
    rw [hV] at hhit
    cases b with
    | false => exact absurd hhit (by simp)
    | true =>
      simp only
      rw [hV] at hI
      simp only [vtTraceSampleLoop]
      rw [hI]
      simp [hzero]

/-- Witness for C3: the concrete ray (0,0,-2) toward the unit box with
`maxInteractions = 0` returns black at the first accepted interaction. -/
theorem vtTraceSample_maxInteractions_black_witness :
    vtTraceSampleLoop opsLog rngZero ctxUnit 1 1 ⟨0, 0, -49 / 100⟩ ⟨0, 0, 1⟩ 1 0 0 0
        = some (⟨0, 0, 0⟩, 2) ∧
      vtTraceSample opsLog rngZero ctxUnit ⟨0, 0, -2⟩ ⟨0, 0, 1⟩ 1 1 0 = some (⟨0, 0, 0⟩, 2) :=
  ⟨vtTraceSample_maxInteractions_black.1 opsLog rngZero ctxUnit 1 0 ⟨0, 0, -49 / 100⟩
      ⟨0, 0, 1⟩ 1 0 0 0 ⟨0, 0, -12 / 25⟩ 2 (Nat.zero_le 0) (by with_unfolding_all decide),
   vtTraceSample_maxInteractions_black.2 opsLog rngZero ctxUnit ⟨0, 0, -2⟩ ⟨0, 0, 1⟩ 0 1 0
      ⟨0, 0, -12 / 25⟩ 2 rfl (by with_unfolding_all decide) (by with_unfolding_all decide)⟩

/-! ### Claim C9: Normalize -/

/-- Counterexample to C9 as stated: the vector (1/1000, 0, 0) is nonzero,
yet its squared length 10^-6 falls below the `kEP` guard, so `Normalize`
returns it unchanged and the length of the result is 0, not approximately
1 (the guard compares the squared length against `kEP`, not the length). -/
theorem Normalize_small_nonzero_not_unit :
    (⟨1 / 1000, 0, 0⟩ : VTVec3) ≠ ⟨0, 0, 0⟩ ∧
    VTVec3.Normalize opsZero ⟨1 / 1000, 0, 0⟩ = ⟨1 / 1000, 0, 0⟩ ∧
    VTVec3.Length opsZero (VTVec3.Normalize opsZero ⟨1 / 1000, 0, 0⟩) = 0 := by
  refine ⟨?_, ?_, ?_⟩ <;> with_unfolding_all decide

/-- C9 (amended): for a vector whose squared length exceeds the `kEP`
guard, and an exact square root, the normalized vector has length exactly
1; a vector whose computed length is below `kEP` is returned unchanged
(the documented edge case, not a unit vector). -/
theorem Normalize_unit_length (ops : MathOps) (a b : VTVec3)
    (hsq : a.x * a.x + a.y * a.y + a.z * a.z > kEP)
    (hs1 : ops.sqrtf (a.x * a.x + a.y * a.y + a.z * a.z) *
        ops.sqrtf (a.x * a.x + a.y * a.y + a.z * a.z)
        = a.x * a.x + a.y * a.y + a.z * a.z)
    (hs2 : 0 ≤ ops.sqrtf (a.x * a.x + a.y * a.y + a.z * a.z))
    (hone : ops.sqrtf 1 = 1)
    (hb : VTVec3.Length ops b < kEP) :
    VTVec3.Length ops (VTVec3.Normalize ops a) = 1 ∧ VTVec3.Normalize ops b = b := by
  have hk : (0 : ℚ) < kEP := by norm_num [kEP]
  constructor
  · have hlpos : 0 < ops.sqrtf (a.x * a.x + a.y * a.y + a.z * a.z) := by
      rcases lt_or_eq_of_le hs2 with h | h
      · exact h
      · exfalso; nlinarith
    have hlk : ¬ ops.sqrtf (a.x * a.x + a.y * a.y + a.z * a.z) < kEP := by
      intro hc
      have h5 := mul_self_lt_mul_self hs2 hc
      have h6 : kEP * kEP < kEP := by norm_num [kEP]
      linarith
    have hn : VTVec3.Normalize ops a =
        ⟨a.x / ops.sqrtf (a.x * a.x + a.y * a.y + a.z * a.z),
         a.y / ops.sqrtf (a.x * a.x + a.y * a.y + a.z * a.z),
         a.z / ops.sqrtf (a.x * a.x + a.y * a.y + a.z * a.z)⟩ := by
      simp only [VTVec3.Normalize, VTVec3.Length, if_pos hsq]
      rw [if_neg hlk]
    rw [hn]
    simp only [VTVec3.Length]
    have hsum : a.x / ops.sqrtf (a.x * a.x + a.y * a.y + a.z * a.z) *
          (a.x / ops.sqrtf (a.x * a.x + a.y * a.y + a.z * a.z)) +
        a.y / ops.sqrtf (a.x * a.x + a.y * a.y + a.z * a.z) *
          (a.y / ops.sqrtf (a.x * a.x + a.y * a.y + a.z * a.z)) +
        a.z / ops.sqrtf (a.x * a.x + a.y * a.y + a.z * a.z) *
          (a.z / ops.sqrtf (a.x * a.x + a.y * a.y + a.z * a.z)) = 1 := by
      field_simp
      linarith [hs1]
    rw [hsum, if_pos (by norm_num [kEP] : (1 : ℚ) > kEP)]
    exact hone
  · simp only [VTVec3.Normalize]
    rw [if_pos hb]

/-- Witness for C9 (amended): normalizing (3,4,0) under a square root that
is exact at 25 yields a vector of length 1, and the tiny vector
(1/1000, 0, 0) is returned unchanged. -/
theorem Normalize_unit_length_witness :
    VTVec3.Length opsSqrt25 (VTVec3.Normalize opsSqrt25 ⟨3, 4, 0⟩) = 1 ∧
      VTVec3.Normalize opsSqrt25 ⟨1 / 1000, 0, 0⟩ = ⟨1 / 1000, 0, 0⟩ :=
  Normalize_unit_length opsSqrt25 ⟨3, 4, 0⟩ ⟨1 / 1000, 0, 0⟩
    (by with_unfolding_all decide) (by with_unfolding_all decide)
    (by with_unfolding_all decide) (by with_unfolding_all decide)
    (by with_unfolding_all decide)

/-! ### Claim C8: Density grid index bounds -/

/-- Counterexample to C8 as stated: `VTMedium::Density` clamps the derived
grid indices only from above (`std::min(size - 1, ...)`), so at the query
point (-2,-2,-2) on a 2-cell unit-box grid the derived x index is -3, not
in [0, n-1], and the first flat read index is -21, outside the n^3
array. -/
theorem VTMedium_Density_index_below_zero :
    medGrid2.cellX ⟨-2, -2, -2⟩ = -3 ∧
    medGrid2.cellZ ⟨-2, -2, -2⟩ * medGrid2.size * medGrid2.size +
        medGrid2.cellY ⟨-2, -2, -2⟩ * medGrid2.size + medGrid2.cellX ⟨-2, -2, -2⟩ = -21 ∧
    ¬ (0 ≤ medGrid2.cellX ⟨-2, -2, -2⟩) := by
  refine ⟨?_, ?_, ?_⟩ <;> with_unfolding_all decide

theorem flatIndex_bounds (s a b c : ℤ) (hs : 1 ≤ s) (ha0 : 0 ≤ a) (ha1 : a ≤ s - 1)
    (hb0 : 0 ≤ b) (hb1 : b ≤ s - 1) (hc0 : 0 ≤ c) (hc1 : c ≤ s - 1) :
    0 ≤ c * s * s + b * s + a ∧ c * s * s + b * s + a < s * s * s := by
  have hs0 : (0 : ℤ) ≤ s := by omega
  constructor
  · have h1 : 0 ≤ c * s * s := mul_nonneg (mul_nonneg hc0 hs0) hs0
    have h2 : 0 ≤ b * s := mul_nonneg hb0 hs0
    omega
  · have h1 : c * s * s ≤ (s - 1) * s * s :=
      mul_le_mul_of_nonneg_right (mul_le_mul_of_nonneg_right hc1 hs0) hs0
    have h2 : b * s ≤ (s - 1) * s := mul_le_mul_of_nonneg_right hb1 hs0
    nlinarith

/-- C8 (amended): for query points no lower than the box's lower corner on
each axis (in particular for all points inside the volume box), a positive
extent and at least one grid cell, every derived grid index lies in
[0, n-1] and all four flat reads of `VTMedium::Density` are within the
n^3 array; the source's clamp acts only from above, which suffices there
because the fractional coordinates are then nonnegative. -/
theorem VTMedium_Density_indices_in_bounds (m : VTMedium) (pos : VTVec3)
    (hs : 1 ≤ m.size) (hex : 0 < m.volumeExtent.x) (hey : 0 < m.volumeExtent.y)
    (hez : 0 < m.volumeExtent.z)
    (hpx : -(m.volumeExtent.x * (1 / 2)) ≤ pos.x)
    (hpy : -(m.volumeExtent.y * (1 / 2)) ≤ pos.y)
    (hpz : -(m.volumeExtent.z * (1 / 2)) ≤ pos.z) :
    ∀ idx ∈ m.readIndices pos, 0 ≤ idx ∧ idx < m.size * m.size * m.size := by
  have hsQ : (0 : ℚ) < (m.size : ℚ) := by exact_mod_cast (by omega : (0 : ℤ) < m.size)
  have hfx : 0 ≤ m.fracX pos :=
    div_nonneg (by linarith) (div_pos hex hsQ).le
  have hfy : 0 ≤ m.fracY pos :=
    div_nonneg (by linarith) (div_pos hey hsQ).le
  have hfz : 0 ≤ m.fracZ pos :=
    div_nonneg (by linarith) (div_pos hez hsQ).le
  have htx : 0 ≤ truncQ (m.fracX pos) := by
    simp only [truncQ, if_pos hfx]; exact Int.floor_nonneg.mpr hfx
  have hty : 0 ≤ truncQ (m.fracY pos) := by
    simp only [truncQ, if_pos hfy]; exact Int.floor_nonneg.mpr hfy
  have htz : 0 ≤ truncQ (m.fracZ pos) := by
    simp only [truncQ, if_pos hfz]; exact Int.floor_nonneg.mpr hfz
  have hx : 0 ≤ m.cellX pos ∧ m.cellX pos ≤ m.size - 1 :=
    ⟨le_min (by omega) htx, min_le_left _ _⟩
  have hy : 0 ≤ m.cellY pos ∧ m.cellY pos ≤ m.size - 1 :=
    ⟨le_min (by omega) hty, min_le_left _ _⟩
  have hz : 0 ≤ m.cellZ pos ∧ m.cellZ pos ≤ m.size - 1 :=
    ⟨le_min (by omega) htz, min_le_left _ _⟩
  have hx1 : 0 ≤ m.cellX1 pos ∧ m.cellX1 pos ≤ m.size - 1 :=
    ⟨le_min (by omega) (by have := hx.1; omega), min_le_left _ _⟩
  have hy1 : 0 ≤ m.cellY1 pos ∧ m.cellY1 pos ≤ m.size - 1 :=
    ⟨le_min (by omega) (by have := hy.1; omega), min_le_left _ _⟩
  have hz1 : 0 ≤ m.cellZ1 pos ∧ m.cellZ1 pos ≤ m.size - 1 :=
    ⟨le_min (by omega) (by have := hz.1; omega), min_le_left _ _⟩
  intro idx hidx
  simp only [VTMedium.readIndices, List.mem_cons, List.not_mem_nil, or_false] at hidx
  rcases hidx with h | h | h | h <;> subst h
  · exact flatIndex_bounds m.size _ _ _ hs hx.1 hx.2 hy.1 hy.2 hz.1 hz.2
  · exact flatIndex_bounds m.size _ _ _ hs hx1.1 hx1.2 hy.1 hy.2 hz.1 hz.2
  · exact flatIndex_bounds m.size _ _ _ hs hx.1 hx.2 hy1.1 hy1.2 hz.1 hz.2
  · exact flatIndex_bounds m.size _ _ _ hs hx.1 hx.2 hy.1 hy.2 hz1.1 hz1.2

/-- Witness for C8 (amended): at the origin of the 2-cell unit-box grid
the first flat read index is within [0, 8). -/
theorem VTMedium_Density_indices_in_bounds_witness :
    0 ≤ medGrid2.cellZ ⟨0, 0, 0⟩ * medGrid2.size * medGrid2.size +
        medGrid2.cellY ⟨0, 0, 0⟩ * medGrid2.size + medGrid2.cellX ⟨0, 0, 0⟩ ∧
      medGrid2.cellZ ⟨0, 0, 0⟩ * medGrid2.size * medGrid2.size +
        medGrid2.cellY ⟨0, 0, 0⟩ * medGrid2.size + medGrid2.cellX ⟨0, 0, 0⟩ <
        medGrid2.size * medGrid2.size * medGrid2.size :=
  VTMedium_Density_indices_in_bounds medGrid2 ⟨0, 0, 0⟩
    (by norm_num [medGrid2]) (by norm_num [medGrid2]) (by norm_num [medGrid2])
    (by norm_num [medGrid2]) (by norm_num [medGrid2]) (by norm_num [medGrid2])
    (by norm_num [medGrid2]) _ (by simp [VTMedium.readIndices])

/-! ### Claims C5 and C6: the pixel pipeline on rays that miss the box -/

theorem vtTraceSample_miss (ops : MathOps) (rng : ℕ → ℚ) (context : VTContext)
    (p d : VTVec3) (fuel ifuel i : ℕ)
    (h : (vtIntersectVolume context p d).1 = false) :
    vtTraceSample ops rng context p d fuel ifuel i = some (context.ambient * (1 : ℚ), i) := by
  unfold vtTraceSample
  rcases hV : vtIntersectVolume context p d with ⟨b, tm⟩
  rw [hV] at h
  cases b with
  | false => rfl
  | true => exact absurd h (by simp)

theorem fminfX_le_left (c : ℚ) (Y : XF) :
    fminfX (XF.fin c) Y = XF.neginf ∨ ∃ q, fminfX (XF.fin c) Y = XF.fin q ∧ q ≤ c := by
  cases Y with
  | nan => exact .inr ⟨c, rfl, le_rfl⟩
  | neginf => exact .inl rfl
  | fin q => exact .inr ⟨min c q, rfl, min_le_left c q⟩
  | posinf => exact .inr ⟨c, rfl, le_rfl⟩

theorem fminfX_le_prop (A X : XF) (c : ℚ)
    (hA : A = XF.neginf ∨ ∃ q, A = XF.fin q ∧ q ≤ c) :
    fminfX A X = XF.neginf ∨ ∃ q, fminfX A X = XF.fin q ∧ q ≤ c := by
  rcases hA with h | ⟨q, hq, hqc⟩
  · subst h
    cases X with
    | nan => exact .inl rfl
    | neginf => exact .inl rfl
    | fin r => exact .inl rfl
    | posinf => exact .inl rfl
  · subst hq
    cases X with
    | nan => exact .inr ⟨q, rfl, hqc⟩
    | neginf => exact .inl rfl
    | fin r => exact .inr ⟨min q r, rfl, le_trans (min_le_left q r) hqc⟩
    | posinf => exact .inr ⟨q, rfl, hqc⟩

theorem ltb_false (a b : XF) (c : ℚ) (hc : c < 0)
    (ha : a = XF.posinf ∨ ∃ q, a = XF.fin q ∧ 0 ≤ q)
    (hb : b = XF.neginf ∨ ∃ q, b = XF.fin q ∧ q ≤ c) :
    XF.ltb a b = false := by
  rcases ha with h | ⟨q, hq, hq0⟩ <;> subst_vars <;>
    rcases hb with h | ⟨r, hr, hrc⟩ <;> subst_vars
  · rfl
  · rfl
  · rfl
  · simp only [XF.ltb, decide_eq_false_iff_not]
    exact not_lt.mpr (by linarith)

/-- If the z-slab of the box lies entirely at negative ray parameters (the
per-axis maximum along z is a finite negative value), the slab test
reports a miss: `tMax` is at most that negative value while `tMin` is
clamped to at least 0. -/
theorem vtIntersectVolume_miss_of_zslab (context : VTContext) (s d : VTVec3) (c : ℚ)
    (hc : c < 0)
    (hz : fmaxfX
        (XF.div (-(context.medium.volumeExtent * (1 / 2 : ℚ)).z - s.z) d.z)
        (XF.div ((context.medium.volumeExtent * (1 / 2 : ℚ)).z - s.z) d.z) = XF.fin c) :
    (vtIntersectVolume context s d).1 = false := by
  simp only [vtIntersectVolume]
  rw [hz]
  exact ltb_false _ _ c hc (fmaxfX_fin_zero _)
    (fminfX_le_prop _ _ _ (fminfX_le_left _ _))

/-- `Normalize` under `opsAway`-style ops (whose square root is constantly
1) preserves a z component: either the small-length branch returns the
vector unchanged, or the division is by 1. -/
theorem normalize_opsAway_z (v : VTVec3) (c : ℚ) (hv : v.z = c) :
    (VTVec3.Normalize opsAway v).z = c := by
  simp only [VTVec3.Normalize, VTVec3.Length, opsAway]
  split_ifs with h1 h2 h3
  · exact hv
  · show v.z / 1 = c
    rw [div_one]
    exact hv
  · exact hv
  · exact absurd (by norm_num [kEP] : (0 : ℚ) < kEP) h3

theorem ctxAway_sampleStart_z (x y : ℕ) (u1 u2 : ℚ) :
    (vtSampleStart opsAway ctxAway 0 0 x y u1 u2).z = -3 := by
  have hh : vtBasisH opsAway ctxAway = ⟨-1, 0, 0⟩ := by with_unfolding_all decide
  have hu : vtBasisU opsAway ctxAway = ⟨0, 1, 0⟩ := by with_unfolding_all decide
  have hlb : vtLowerBound opsAway ctxAway = ⟨1 / 2, -1 / 2, -3⟩ := by with_unfolding_all decide
  simp only [vtSampleStart, hh, hu, hlb, VTVec3.add_def, VTVec3.smul_def]
  norm_num

theorem ctxAway_all_miss (x y : ℕ) (u1 u2 : ℚ) :
    (vtIntersectVolume ctxAway (vtSampleStart opsAway ctxAway 0 0 x y u1 u2)
      (vtSampleDir opsAway ctxAway (vtSampleStart opsAway ctxAway 0 0 x y u1 u2))).1
      = false := by
  have hsz := ctxAway_sampleStart_z x y u1 u2
  have hdz : (vtSampleDir opsAway ctxAway (vtSampleStart opsAway ctxAway 0 0 x y u1 u2)).z
      = -1 := by
    unfold vtSampleDir
    refine normalize_opsAway_z _ _ ?_
    simp only [VTVec3.sub_def]
    rw [hsz]
    norm_num [ctxAway]
  have hhz : (ctxAway.medium.volumeExtent * (1 / 2 : ℚ)).z = 1 / 2 := by
    with_unfolding_all decide
  refine vtIntersectVolume_miss_of_zslab ctxAway _ _ (-5 / 2) (by norm_num) ?_
  rw [hsz, hdz, hhz]
  with_unfolding_all decide

theorem ctxAway2_sampleStart_z (x y : ℕ) (u1 u2 : ℚ) :
    (vtSampleStart opsAway ctxAway2 0 0 x y u1 u2).z = 3 := by
  have hh : vtBasisH opsAway ctxAway2 = ⟨1, 0, 0⟩ := by with_unfolding_all decide
  have hu : vtBasisU opsAway ctxAway2 = ⟨0, 1, 0⟩ := by with_unfolding_all decide
  have hlb : vtLowerBound opsAway ctxAway2 = ⟨-1 / 2, -1 / 2, 3⟩ := by with_unfolding_all decide
  simp only [vtSampleStart, hh, hu, hlb, VTVec3.add_def, VTVec3.smul_def]
  norm_num

theorem ctxAway2_all_miss (x y : ℕ) (u1 u2 : ℚ) :
    (vtIntersectVolume ctxAway2 (vtSampleStart opsAway ctxAway2 0 0 x y u1 u2)
      (vtSampleDir opsAway ctxAway2 (vtSampleStart opsAway ctxAway2 0 0 x y u1 u2))).1
      = false := by
  have hsz := ctxAway2_sampleStart_z x y u1 u2
  have hdz : (vtSampleDir opsAway ctxAway2 (vtSampleStart opsAway ctxAway2 0 0 x y u1 u2)).z
      = 1 := by
    unfold vtSampleDir
    refine normalize_opsAway_z _ _ ?_
    simp only [VTVec3.sub_def]
    rw [hsz]
    norm_num [ctxAway2]
  have hhz : (ctxAway2.medium.volumeExtent * (1 / 2 : ℚ)).z = 1 / 2 := by
    with_unfolding_all decide
  refine vtIntersectVolume_miss_of_zslab ctxAway2 _ _ (-5 / 2) (by norm_num) ?_
  rw [hsz, hdz, hhz]
  with_unfolding_all decide

theorem vtSamplePoints_flat_length (S : ℕ) :
    ∀ l : List ℕ, (l.flatMap fun x => (List.range S).map fun y => (x, y)).length
      = l.length * S := by
  intro l
  induction l with
  | nil => simp
  | cons a t ih => simp [List.flatMap_cons, ih]; ring

theorem vtSamplePoints_length (S : ℕ) : (vtSamplePoints S).length = S * S := by
  rw [vtSamplePoints, vtSamplePoints_flat_length, List.length_range]

theorem vec_acc_step (acc amb : VTVec3) (n : ℕ) :
    acc + amb * (1 : ℚ) + amb * (n : ℚ) = acc + amb * ((n + 1 : ℕ) : ℚ) := by
  simp only [VTVec3.add_def, VTVec3.smul_def, VTVec3.mk.injEq]
  push_cast
  refine ⟨by ring, by ring, by ring⟩

theorem vtAccumulate_nil (ops : MathOps) (rng : ℕ → ℚ) (context : VTContext)
    (px py fuel ifuel : ℕ) (st : VTVec3 × ℕ) :
    vtAccumulate ops rng context px py fuel ifuel [] st = some st := rfl

theorem vtAccumulate_cons (ops : MathOps) (rng : ℕ → ℚ) (context : VTContext)
    (px py fuel ifuel : ℕ) (x y : ℕ) (rest : List (ℕ × ℕ)) (acc : VTVec3) (i : ℕ) :
    vtAccumulate ops rng context px py fuel ifuel ((x, y) :: rest) (acc, i)
      = (match vtTraceSample ops rng context
            (vtSampleStart ops context px py x y (rng i) (rng (i + 1)))
            (vtSampleDir ops context (vtSampleStart ops context px py x y (rng i) (rng (i + 1))))
            fuel ifuel (i + 2) with
        | none => none
        | some (c, i1) => vtAccumulate ops rng context px py fuel ifuel rest (acc + c, i1)) :=
  rfl

/-- When every jittered sub-pixel ray misses the volume, the accumulation
loop adds the ambient color once per sample and advances the cursor by
exactly the two jitter draws per sample. -/
theorem vtAccumulate_miss (ops : MathOps) (rng : ℕ → ℚ) (context : VTContext)
    (px py fuel ifuel : ℕ)
    (hmiss : ∀ (x y : ℕ) (u1 u2 : ℚ),
      (vtIntersectVolume context (vtSampleStart ops context px py x y u1 u2)
        (vtSampleDir ops context (vtSampleStart ops context px py x y u1 u2))).1 = false) :
    ∀ (l : List (ℕ × ℕ)) (acc : VTVec3) (i : ℕ),
      vtAccumulate ops rng context px py fuel ifuel l (acc, i)
        = some (acc + context.ambient * ((l.length : ℕ) : ℚ), i + 2 * l.length) := by
  intro l
  induction l with
  | nil =>
    intro acc i
    rw [vtAccumulate_nil]
    simp only [List.length_nil, Nat.cast_zero, Nat.mul_zero, Nat.add_zero]
    rcases acc with ⟨ax, ay, az⟩
    simp [VTVec3.add_def, VTVec3.smul_def]
  | cons hd tl ih =>
    intro acc i
    rcases hd with ⟨x, y⟩
    rw [vtAccumulate_cons]
    rw [vtTraceSample_miss ops rng context _ _ fuel ifuel (i + 2)
      (hmiss x y (rng i) (rng (i + 1)))]
    dsimp only
    rw [ih]
    rw [vec_acc_step]
    simp only [List.length_cons, Option.some.injEq, Prod.mk.injEq, true_and]
    omega

/-- When every jittered sub-pixel ray misses the volume, the pixel shader
outputs the finalized ambient color: the division by `S*S` exactly
compensates the `S*S` accumulated samples. -/
theorem vtVolumePathTrace_all_miss (ops : MathOps) (rng : ℕ → ℚ) (context : VTContext)
    (px py fuel ifuel i : ℕ) (hS : 1 ≤ context.samplePerPixel)
    (hmiss : ∀ (x y : ℕ) (u1 u2 : ℚ),
      (vtIntersectVolume context (vtSampleStart ops context px py x y u1 u2)
        (vtSampleDir ops context (vtSampleStart ops context px py x y u1 u2))).1 = false) :
    vtVolumePathTrace ops rng context px py fuel ifuel i
      = some (vtFinalize ops context.ambient,
          i + 2 * (context.samplePerPixel * context.samplePerPixel)) := by
  unfold vtVolumePathTrace
  rw [vtAccumulate_miss ops rng context px py fuel ifuel hmiss
    (vtSamplePoints context.samplePerPixel) ⟨0, 0, 0⟩ i]
  simp only [vtSamplePoints_length]
  have hS0 : ((context.samplePerPixel : ℚ)) ≠ 0 := Nat.cast_ne_zero.mpr (by omega)
  have hvec : ((⟨0, 0, 0⟩ : VTVec3) +
        context.ambient * ((context.samplePerPixel * context.samplePerPixel : ℕ) : ℚ)) *
        ((1 : ℚ) / ((context.samplePerPixel : ℚ) * (context.samplePerPixel : ℚ)))
      = context.ambient := by
    rcases hamb : context.ambient with ⟨ax, ay, az⟩
    simp only [VTVec3.add_def, VTVec3.smul_def, VTVec3.mk.injEq]
    push_cast
    refine ⟨?_, ?_, ?_⟩ <;> field_simp <;> ring
  rw [hvec]

theorem truncU_byte (P : ℚ) (h1 : 46 / 51 ≤ P) (h2 : P < 77 / 85) :
    truncU (255 * min P 1) = 230 := by
  have hm : min P 1 = P := min_eq_left (by linarith)
  rw [hm]
  unfold truncU
  have hf : ⌊(255 : ℚ) * P⌋ = 230 := by
    rw [Int.floor_eq_iff]
    constructor
    · push_cast
      linarith
    · push_cast
      linarith
  rw [hf]
  rfl

theorem vtFinalize_ambient222 (ops : MathOps)
    (hp1 : 46 / 51 ≤ ops.powf (4 / 5) (1 / (22 / 10 : ℚ)))
    (hp2 : ops.powf (4 / 5) (1 / (22 / 10 : ℚ)) < 77 / 85) :
    vtFinalize ops ⟨2, 2, 2⟩ = (230, 230, 230, 255) := by
  simp only [vtFinalize]
  have hc : (2 : ℚ) * (1 + 2 * (1 / 10)) / (1 + 2) = 4 / 5 := by norm_num
  rw [hc]
  have hmax : max (4 / 5 : ℚ) 0 = 4 / 5 := by norm_num
  rw [hmax, truncU_byte _ hp1 hp2]

/-- C5: a camera ray that misses the volume contributes exactly
`ambient * 1.0`; a pixel all of whose jittered sample rays miss the box
with ambient (2,2,2) tone-maps each channel to 2*(1+0.2)/3 = 4/5 and
gamma-encodes to the byte 230 on B, G and R with alpha 255, given that the
libm power at (4/5, 1/2.2) lies in [230/255, 231/255) (which holds for the
true value 0.9035...). -/
theorem vtTraceSample_miss_ambient_pixel :
    (∀ (ops : MathOps) (rng : ℕ → ℚ) (context : VTContext) (p d : VTVec3)
        (fuel ifuel i : ℕ),
      (vtIntersectVolume context p d).1 = false →
      vtTraceSample ops rng context p d fuel ifuel i = some (context.ambient * (1 : ℚ), i)) ∧
    (∀ (ops : MathOps) (rng : ℕ → ℚ) (context : VTContext) (px py fuel ifuel i : ℕ),
      1 ≤ context.samplePerPixel →
      context.ambient = ⟨2, 2, 2⟩ →
      (∀ (x y : ℕ) (u1 u2 : ℚ),
        (vtIntersectVolume context (vtSampleStart ops context px py x y u1 u2)
          (vtSampleDir ops context (vtSampleStart ops context px py x y u1 u2))).1 = false) →
      46 / 51 ≤ ops.powf (4 / 5) (1 / (22 / 10 : ℚ)) →
      ops.powf (4 / 5) (1 / (22 / 10 : ℚ)) < 77 / 85 →
      vtVolumePathTrace ops rng context px py fuel ifuel i
        = some ((230, 230, 230, 255),
            i + 2 * (context.samplePerPixel * context.samplePerPixel))) := by
  constructor
  · exact vtTraceSample_miss
  · intro ops rng context px py fuel ifuel i hS hamb hmiss hp1 hp2
    rw [vtVolumePathTrace_all_miss ops rng context px py fuel ifuel i hS hmiss, hamb,
      vtFinalize_ambient222 ops hp1 hp2]

/-- Witness for C5: the concrete away-facing camera produces the pixel
bytes (230, 230, 230, 255). -/
theorem vtTraceSample_miss_ambient_pixel_witness :
    vtVolumePathTrace opsAway rngZero ctxAway 0 0 1 1 0
      = some ((230, 230, 230, 255),
          0 + 2 * (ctxAway.samplePerPixel * ctxAway.samplePerPixel)) :=
  vtTraceSample_miss_ambient_pixel.2 opsAway rngZero ctxAway 0 0 1 1 0
    (by norm_num [ctxAway]) rfl ctxAway_all_miss
    (by norm_num [opsAway]) (by norm_num [opsAway])

/-- C6: the sub-pixel loop of `vtVolumePathTrace` visits exactly
`S*S` sample points (`S` per axis), the accumulated radiance is divided by
`S*S` (not `S`), and consequently a pixel whose `S*S` samples all return
the same ambient radiance is finalized from exactly that radiance. -/
theorem vtVolumePathTrace_sample_count :
    (∀ S : ℕ, (vtSamplePoints S).length = S * S) ∧
    (∀ (ops : MathOps) (rng : ℕ → ℚ) (context : VTContext)
        (px py fuel ifuel i : ℕ) (accum : VTVec3) (i1 : ℕ),
      vtAccumulate ops rng context px py fuel ifuel
          (vtSamplePoints context.samplePerPixel) (⟨0, 0, 0⟩, i) = some (accum, i1) →
      vtVolumePathTrace ops rng context px py fuel ifuel i
        = some (vtFinalize ops (accum *
            ((1 : ℚ) / ((context.samplePerPixel : ℚ) * (context.samplePerPixel : ℚ)))), i1)) ∧
    (∀ (ops : MathOps) (rng : ℕ → ℚ) (context : VTContext) (px py fuel ifuel i : ℕ),
      1 ≤ context.samplePerPixel →
      (∀ (x y : ℕ) (u1 u2 : ℚ),
        (vtIntersectVolume context (vtSampleStart ops context px py x y u1 u2)
          (vtSampleDir ops context (vtSampleStart ops context px py x y u1 u2))).1 = false) →
      vtVolumePathTrace ops rng context px py fuel ifuel i
        = some (vtFinalize ops context.ambient,
            i + 2 * (context.samplePerPixel * context.samplePerPixel))) := by
  refine ⟨vtSamplePoints_length, ?_, ?_⟩
  · intro ops rng context px py fuel ifuel i accum i1 h
    unfold vtVolumePathTrace
    rw [h]
  · intro ops rng context px py fuel ifuel i hS hmiss
    exact vtVolumePathTrace_all_miss ops rng context px py fuel ifuel i hS hmiss

/-- Witness for C6: with two samples per pixel axis the away-facing camera
accumulates 4 samples and the divisor 4 reproduces the ambient color. -/
theorem vtVolumePathTrace_sample_count_witness :
    vtVolumePathTrace opsAway rngZero ctxAway2 0 0 1 1 0
      = some (vtFinalize opsAway ctxAway2.ambient,
          0 + 2 * (ctxAway2.samplePerPixel * ctxAway2.samplePerPixel)) :=
  vtVolumePathTrace_sample_count.2.2 opsAway rngZero ctxAway2 0 0 1 1 0
    (by norm_num [ctxAway2]) ctxAway2_all_miss

/-! ### Claim C7: determinism and the shared random cursor -/

theorem vtTraceInteractionAux_cursor (ops : MathOps) (rng : ℕ → ℚ) (context : VTContext)
    (p d : VTVec3) :
    ∀ fuel t i r, vtTraceInteractionAux ops rng context p d fuel t i = some r →
      i + 1 ≤ r.2.2 := by
  intro fuel
  induction fuel with
  | zero => intro t i r h; simp [vtTraceInteractionAux] at h
  | succ n ih =>
    intro t i r h
    simp only [vtTraceInteractionAux] at h
    split_ifs at h with h1 h2
    · have := ih _ _ _ h
      omega
    · obtain ⟨b, v, j⟩ := r
      simp only [Option.some.injEq, Prod.mk.injEq] at h
      obtain ⟨-, -, h3⟩ := h
      show i + 1 ≤ j
      omega
    · obtain ⟨b, v, j⟩ := r
      simp only [Option.some.injEq, Prod.mk.injEq] at h
      obtain ⟨-, -, h3⟩ := h
      show i + 1 ≤ j
      omega

theorem vtTraceInteraction_cursor (ops : MathOps) (rng : ℕ → ℚ) (context : VTContext)
    (p d : VTVec3) (fuel i : ℕ) (r : Bool × VTVec3 × ℕ)
    (h : vtTraceInteraction ops rng context p d fuel i = some r) : i + 1 ≤ r.2.2 :=
  vtTraceInteractionAux_cursor ops rng context p d fuel 0 i r h

theorem vtTraceInteractionAux_agree (ops : MathOps) (context : VTContext) (p d : VTVec3)
    (rng1 rng2 : ℕ → ℚ) :
    ∀ fuel t i b v i1,
      vtTraceInteractionAux ops rng1 context p d fuel t i = some (b, v, i1) →
      (∀ j, i ≤ j → j < i1 → rng1 j = rng2 j) →
      vtTraceInteractionAux ops rng2 context p d fuel t i = some (b, v, i1) := by
  intro fuel
  induction fuel with
  | zero => intro t i b v i1 h _; simp [vtTraceInteractionAux] at h
  | succ n ih =>
    intro t i b v i1 h hag
    have hcur : i + 1 ≤ i1 :=
      vtTraceInteractionAux_cursor ops rng1 context p d (n + 1) t i _ h
    have h0 : rng1 i = rng2 i := hag i le_rfl (by omega)
    simp only [vtTraceInteractionAux] at h ⊢
    rw [← h0]
    by_cases hin : vtInVolume context
        (p + d * (t - ops.logf (1 - rng1 i) / context.medium.maxExtinction)) = true
    · rw [if_pos hin] at h ⊢
      by_cases hr : vtExtinction ops context
          (p + d * (t - ops.logf (1 - rng1 i) / context.medium.maxExtinction)) d
          < rng1 (i + 1) * context.medium.maxExtinction
      · rw [if_pos hr] at h
        have hcur2 : (i + 2) + 1 ≤ i1 :=
          vtTraceInteractionAux_cursor ops rng1 context p d n _ (i + 2) _ h
        have h1 : rng1 (i + 1) = rng2 (i + 1) := hag (i + 1) (by omega) (by omega)
        rw [← h1, if_pos hr]
        exact ih _ _ _ _ _ h fun j hj1 hj2 => hag j (by omega) hj2
      · rw [if_neg hr] at h
        have hi1 : i1 = i + 2 := by
          have h' := h
          simp only [Option.some.injEq, Prod.mk.injEq] at h'
          exact h'.2.2.symm
        have h1 : rng1 (i + 1) = rng2 (i + 1) := hag (i + 1) (by omega) (by omega)
        rw [← h1, if_neg hr]
        exact h
    · rw [if_neg hin] at h ⊢
      exact h

theorem vtTraceInteraction_agree (ops : MathOps) (context : VTContext) (p d : VTVec3)
    (rng1 rng2 : ℕ → ℚ) (fuel i : ℕ) (b : Bool) (v : VTVec3) (i1 : ℕ)
    (h : vtTraceInteraction ops rng1 context p d fuel i = some (b, v, i1))
    (hag : ∀ j, i ≤ j → j < i1 → rng1 j = rng2 j) :
    vtTraceInteraction ops rng2 context p d fuel i = some (b, v, i1) :=
  vtTraceInteractionAux_agree ops context p d rng1 rng2 fuel 0 i b v i1 h hag

theorem vtScatterDir_agree (ops : MathOps) (rng1 rng2 : ℕ → ℚ) (k : ℕ)
    (h1 : rng1 k = rng2 k) (h2 : rng1 (k + 1) = rng2 (k + 1)) :
    vtScatterDir ops rng1 k = vtScatterDir ops rng2 k := by
  simp only [vtScatterDir, h1, h2]

theorem vtTraceSampleLoop_cursor (ops : MathOps) (rng : ℕ → ℚ) (context : VTContext)
    (ifuel : ℕ) :
    ∀ fuel rayPos rayDir weight totalWeight interactions i r,
      vtTraceSampleLoop ops rng context ifuel fuel rayPos rayDir weight totalWeight
        interactions i = some r → i + 1 ≤ r.2 := by
  intro fuel
  induction fuel with
  | zero => intro _ _ _ _ _ _ r h; simp [vtTraceSampleLoop] at h
  | succ n ih =>
    intro rayPos rayDir weight totalWeight interactions i r h
    simp only [vtTraceSampleLoop] at h
    rcases hI : vtTraceInteraction ops rng context rayPos rayDir ifuel i with _ | ⟨b, s, j⟩
    · rw [hI] at h
      simp at h
    · rw [hI] at h
      have hj : i + 1 ≤ j := vtTraceInteraction_cursor ops rng context rayPos rayDir ifuel i _ hI
      obtain ⟨c, i1⟩ := r
      cases b with
      | false =>
        simp only [Option.some.injEq, Prod.mk.injEq] at h
        show i + 1 ≤ i1
        omega
      | true =>
        simp only at h
        split_ifs at h with h1 h2 h3
        · simp only [Option.some.injEq, Prod.mk.injEq] at h
          show i + 1 ≤ i1
          omega
        · simp only [Option.some.injEq, Prod.mk.injEq] at h
          show i + 1 ≤ i1
          omega
        · have := ih _ _ _ _ _ _ _ h
          show i + 1 ≤ i1
          simp only at this
          omega
        · have := ih _ _ _ _ _ _ _ h
          show i + 1 ≤ i1
          simp only at this
          omega

theorem vtTraceSampleLoop_agree (ops : MathOps) (context : VTContext) (ifuel : ℕ)
    (rng1 rng2 : ℕ → ℚ) :
    ∀ fuel rayPos rayDir weight totalWeight interactions i c i1,
      vtTraceSampleLoop ops rng1 context ifuel fuel rayPos rayDir weight totalWeight
        interactions i = some (c, i1) →
      (∀ j, i ≤ j → j < i1 → rng1 j = rng2 j) →
      vtTraceSampleLoop ops rng2 context ifuel fuel rayPos rayDir weight totalWeight
        interactions i = some (c, i1) := by
  intro fuel
  induction fuel with
  | zero => intro _ _ _ _ _ _ _ _ h _; simp [vtTraceSampleLoop] at h
  | succ n ih =>
    intro rayPos rayDir weight totalWeight interactions i c i1 h hag
    simp only [vtTraceSampleLoop] at h ⊢
    rcases hI : vtTraceInteraction ops rng1 context rayPos rayDir ifuel i with _ | ⟨b, s, j⟩
    · rw [hI] at h
      simp at h
    · rw [hI] at h
      have hj : i + 1 ≤ j := vtTraceInteraction_cursor ops rng1 context rayPos rayDir ifuel i _ hI
      cases b with
      | false =>
        have hi1 : i1 = j := by
          have h' := h
          simp only [Option.some.injEq, Prod.mk.injEq] at h'
          exact h'.2.symm
        rw [vtTraceInteraction_agree ops context rayPos rayDir rng1 rng2 ifuel i false s j hI
          fun k hk1 hk2 => hag k hk1 (by omega)]
        exact h
      | true =>
        simp only at h
        split_ifs at h with h1 h2 h3
        · -- interaction budget exceeded: exits at cursor j
          have hi1 : i1 = j := by
            have h' := h
            simp only [Option.some.injEq, Prod.mk.injEq] at h'
            exact h'.2.symm
          rw [vtTraceInteraction_agree ops context rayPos rayDir rng1 rng2 ifuel i true s j hI
            fun k hk1 hk2 => hag k hk1 (by omega)]
          simp only [if_pos h1]
          exact h
        · -- Russian roulette terminates the path: exits at cursor j + 1
          have hi1 : i1 = j + 1 := by
            have h' := h
            simp only [Option.some.injEq, Prod.mk.injEq] at h'
            exact h'.2.symm
          have hrj : rng1 j = rng2 j := hag j (by omega) (by omega)
          rw [vtTraceInteraction_agree ops context rayPos rayDir rng1 rng2 ifuel i true s j hI
            fun k hk1 hk2 => hag k hk1 (by omega)]
          simp only [if_neg h1]
          rw [← hrj]
          simp only [if_pos h2, if_pos h3]
          exact h
        · -- Russian roulette survives: recursion from cursor j + 3
          have hcur : (j + 1 + 2) + 1 ≤ i1 := by
            have := vtTraceSampleLoop_cursor ops rng1 context ifuel n _ _ _ _ _ _ _ h
            simpa using this
          have hrj : rng1 j = rng2 j := hag j (by omega) (by omega)
          have hs1 : rng1 (j + 1) = rng2 (j + 1) := hag (j + 1) (by omega) (by omega)
          have hs2 : rng1 (j + 1 + 1) = rng2 (j + 1 + 1) := hag (j + 1 + 1) (by omega) (by omega)
          rw [vtTraceInteraction_agree ops context rayPos rayDir rng1 rng2 ifuel i true s j hI
            fun k hk1 hk2 => hag k hk1 (by omega)]
          simp only [if_neg h1]
          rw [← hrj]
          simp only [if_pos h2, if_neg h3]
          rw [← vtScatterDir_agree ops rng1 rng2 (j + 1) hs1 hs2]
          exact ih _ _ _ _ _ _ _ _ h fun k hk1 hk2 => hag k (by omega) hk2
        · -- no Russian roulette: recursion from cursor j + 2
          have hcur : (j + 2) + 1 ≤ i1 := by
            have := vtTraceSampleLoop_cursor ops rng1 context ifuel n _ _ _ _ _ _ _ h
            simpa using this
          have hs1 : rng1 j = rng2 j := hag j (by omega) (by omega)
          have hs2 : rng1 (j + 1) = rng2 (j + 1) := hag (j + 1) (by omega) (by omega)
          rw [vtTraceInteraction_agree ops context rayPos rayDir rng1 rng2 ifuel i true s j hI
            fun k hk1 hk2 => hag k hk1 (by omega)]
          simp only [if_neg h1, if_neg h2]
          rw [← vtScatterDir_agree ops rng1 rng2 j hs1 hs2]
          exact ih _ _ _ _ _ _ _ _ h fun k hk1 hk2 => hag k (by omega) hk2

theorem vtTraceSample_cursor (ops : MathOps) (rng : ℕ → ℚ) (context : VTContext)
    (p d : VTVec3) (fuel ifuel i : ℕ) (c : VTVec3) (i1 : ℕ)
    (h : vtTraceSample ops rng context p d fuel ifuel i = some (c, i1)) : i ≤ i1 := by
  unfold vtTraceSample at h
  rcases hV : vtIntersectVolume context p d with ⟨b, tm⟩
  rw [hV] at h
  cases b with
  | true =>
    have h2 := vtTraceSampleLoop_cursor ops rng context ifuel fuel _ d 1 0 0 i (c, i1) h
    simp only at h2
    omega
  | false =>
    simp only [Option.some.injEq, Prod.mk.injEq] at h
    omega

theorem vtTraceSample_agree (ops : MathOps) (context : VTContext) (p d : VTVec3)
    (rng1 rng2 : ℕ → ℚ) (fuel ifuel i : ℕ) (c : VTVec3) (i1 : ℕ)
    (h : vtTraceSample ops rng1 context p d fuel ifuel i = some (c, i1))
    (hag : ∀ j, i ≤ j → j < i1 → rng1 j = rng2 j) :
    vtTraceSample ops rng2 context p d fuel ifuel i = some (c, i1) := by
  unfold vtTraceSample at h ⊢
  rcases hV : vtIntersectVolume context p d with ⟨b, tm⟩
  rw [hV] at h
  cases b with
  | true => exact vtTraceSampleLoop_agree ops context ifuel rng1 rng2 fuel _ d 1 0 0 i c i1 h hag
  | false => exact h

theorem vtAccumulate_cursor (ops : MathOps) (rng : ℕ → ℚ) (context : VTContext)
    (px py fuel ifuel : ℕ) :
    ∀ (l : List (ℕ × ℕ)) (acc : VTVec3) (i : ℕ) (r : VTVec3 × ℕ),
      vtAccumulate ops rng context px py fuel ifuel l (acc, i) = some r → i ≤ r.2 := by
  intro l
  induction l with
  | nil =>
    intro acc i r h
    rw [vtAccumulate_nil] at h
    obtain ⟨c, i1⟩ := r
    simp only [Option.some.injEq, Prod.mk.injEq] at h
    show i ≤ i1
    omega
  | cons hd tl ih =>
    intro acc i r h
    rcases hd with ⟨x, y⟩
    rw [vtAccumulate_cons] at h
    rcases hS : vtTraceSample ops rng context
        (vtSampleStart ops context px py x y (rng i) (rng (i + 1)))
        (vtSampleDir ops context (vtSampleStart ops context px py x y (rng i) (rng (i + 1))))
        fuel ifuel (i + 2) with _ | ⟨c2, j⟩
    · rw [hS] at h
      simp at h
    · rw [hS] at h
      dsimp only at h
      have hj : i + 2 ≤ j := vtTraceSample_cursor ops rng context _ _ fuel ifuel (i + 2) c2 j hS
      have := ih _ _ _ h
      omega

theorem vtAccumulate_agree (ops : MathOps) (context : VTContext)
    (px py fuel ifuel : ℕ) (rng1 rng2 : ℕ → ℚ) :
    ∀ (l : List (ℕ × ℕ)) (acc : VTVec3) (i : ℕ) (c : VTVec3) (i1 : ℕ),
      vtAccumulate ops rng1 context px py fuel ifuel l (acc, i) = some (c, i1) →
      (∀ j, i ≤ j → j < i1 → rng1 j = rng2 j) →
      vtAccumulate ops rng2 context px py fuel ifuel l (acc, i) = some (c, i1) := by
  intro l
  induction l with
  | nil => intro acc i c i1 h _; rwa [vtAccumulate_nil] at h ⊢
  | cons hd tl ih =>
    intro acc i c i1 h hag
    rcases hd with ⟨x, y⟩
    rw [vtAccumulate_cons] at h ⊢
    rcases hS : vtTraceSample ops rng1 context
        (vtSampleStart ops context px py x y (rng1 i) (rng1 (i + 1)))
        (vtSampleDir ops context (vtSampleStart ops context px py x y (rng1 i) (rng1 (i + 1))))
        fuel ifuel (i + 2) with _ | ⟨c2, j⟩
    · rw [hS] at h
      simp at h
    · rw [hS] at h
      dsimp only at h
      have hj : i + 2 ≤ j :=
        vtTraceSample_cursor ops rng1 context _ _ fuel ifuel (i + 2) c2 j hS
      have hi1 : j ≤ i1 := vtAccumulate_cursor ops rng1 context px py fuel ifuel tl _ _ _ h
      have h0 : rng1 i = rng2 i := hag i le_rfl (by omega)
      have h1 : rng1 (i + 1) = rng2 (i + 1) := hag (i + 1) (by omega) (by omega)
      rw [← h0, ← h1]
      rw [vtTraceSample_agree ops context _ _ rng1 rng2 fuel ifuel (i + 2) c2 j hS
        fun k hk1 hk2 => hag k (by omega) (by omega)]
      dsimp only
      exact ih _ _ _ _ h fun k hk1 hk2 => hag k (by omega) hk2

/-- C7 (amended): the per-pixel shader is a pure function of the context,
the pixel index, and the global random stream with its cursor position at
call time — it depends only on the stream values it actually consumes
(positions in `[i, i1)`), so two runs with identical seed, cursor and
context produce identical bytes.  (The claim's stronger reading fails:
each call advances the shared cursor, see the counterexample.) -/
theorem vtVolumePathTrace_rng_window_determinism (ops : MathOps) (rng1 rng2 : ℕ → ℚ)
    (context : VTContext) (px py fuel ifuel i : ℕ) (out : ℕ × ℕ × ℕ × ℕ) (i1 : ℕ)
    (h : vtVolumePathTrace ops rng1 context px py fuel ifuel i = some (out, i1))
    (hag : ∀ j, i ≤ j → j < i1 → rng1 j = rng2 j) :
    vtVolumePathTrace ops rng2 context px py fuel ifuel i = some (out, i1) := by
  unfold vtVolumePathTrace at h ⊢
  rcases hA : vtAccumulate ops rng1 context px py fuel ifuel
      (vtSamplePoints context.samplePerPixel) (⟨0, 0, 0⟩, i) with _ | ⟨accum, j⟩
  · rw [hA] at h
    simp at h
  · rw [hA] at h
    dsimp only at h
    have hi1 : j = i1 := by
      have h' := h
      simp only [Option.some.injEq, Prod.mk.injEq] at h'
      exact h'.2
    rw [vtAccumulate_agree ops context px py fuel ifuel rng1 rng2 _ _ _ _ _ hA
      fun k hk1 hk2 => hag k hk1 (by omega)]
    exact h

/-- Counterexample to C7 as stated: with the same context, pixel and
random stream, starting the shared random cursor at 0 (no prior draws)
versus 1 (one prior draw by any other pixel) changes the output bytes —
the global generator is hidden mutable state observable across calls, so
the shader is not a pure function of context and pixel alone. -/
theorem vtVolumePathTrace_cursor_dependence :
    vtVolumePathTrace opsHit rngSplit ctxHit 0 0 1 1 0
      ≠ vtVolumePathTrace opsHit rngSplit ctxHit 0 0 1 1 1 := by
  with_unfolding_all decide

/-- Witness for C7 (amended): a stream that agrees with the all-zero
stream on the two consumed draws yields the identical pixel output. -/
theorem vtVolumePathTrace_rng_window_determinism_witness :
    vtVolumePathTrace opsAway rngTail ctxAway 0 0 1 1 0
      = some ((230, 230, 230, 255), 2) :=
  vtVolumePathTrace_rng_window_determinism opsAway rngZero rngTail ctxAway 0 0 1 1 0
    (230, 230, 230, 255) 2 (by with_unfolding_all decide)
    (fun j h1 h2 => by simp [rngZero, rngTail, h2])

end ProjectVPT
